import Mathlib

/-!
Verification of the world model of the DisneylandOpenWorld repository:
a shallow embedding of the grid area bookkeeping (area.py), the shop
ledger (area.py), the connection graph (area.py), the theft detection
routine (player.py), the purchase and pickup routines (area.py,
player.py) and the NPC update routines (npc.py), together with proofs
of the properties the specification states about them.

Modelling conventions, recorded once here:

* Python numbers: the source stores integers (coordinates, grid sizes)
  and floats (money, prices, suspicion, alertness, random samples).
  Machine floats are rational numbers, so stored numeric fields are
  embedded as `Int` and `Rat`.  Computations that take a square root
  (Euclidean distances, detection chances) are carried out in `Real`.
* `Coordinates` (coordinates.py) stores `x` and `y`; area.py passes and
  reads a third component `z` everywhere (zero in every call the
  program makes).  The embedding keeps the three components.
* Python object identity: lists such as `Area.items` hold object
  references and membership tests compare identities.  Occupants are
  embedded as immutable values carrying a `ref` identity token, and the
  attribute writes the source performs on occupants while they sit in
  those lists (coordinate updates) are tracked by the states of the
  claims that read them, so list membership of the embedded values
  coincides with identity membership in the source.
* `grid_objects` is a Python dict whose absent keys are read through
  `.get(pos, [])` or guarded by membership tests; an absent key and a
  key holding the empty list are observationally equal for every
  operation modelled here, so the grid is embedded as a total function
  from cells to occupant lists (the source prunes empty entries, which
  under this reading is the identity).
* Randomness: every `random.random()`, `random.choice` and
  `random.randint` outcome of the source is an explicit input of the
  embedded function.
-/

namespace Disney

/-- Coordinates (coordinates.py), together with the third component
that area.py passes and reads everywhere. -/
structure Coordinates where
  x : Int
  y : Int
  z : Int
deriving DecidableEq

/-- The concrete class of a grid occupant: `Item` (item.py), the base
class `NPC`, or one of the proper NPC subclasses defined in npc.py. -/
inductive ObjKind where
  | item
  | npcBase
  | parkCharacter
  | guest
  | castMember
  | shadyCharacter
deriving DecidableEq

/-- The string `obj.__class__.__name__` that area.py and player.py
compare against. -/
def className : ObjKind → String
  | ObjKind.item => "Item"
  | ObjKind.npcBase => "NPC"
  | ObjKind.parkCharacter => "ParkCharacter"
  | ObjKind.guest => "Guest"
  | ObjKind.castMember => "CastMember"
  | ObjKind.shadyCharacter => "ShadyCharacter"

/-- A grid occupant: an Item or an NPC.  The fields union the Item
attributes (value, pickupable, unpaid flags, buy back price) and the
NPC attributes (alertness of a CastMember, the origin of the area the
NPC is located in, used by `NPC.get_grid_position`).  Fields that do
not exist on a given concrete class are never read for it by any
modelled operation.  `ref` is the object identity token. -/
structure Obj where
  ref : Nat
  kind : ObjKind
  name : String
  descr : String
  value : Rat
  pickupable : Bool
  isUnpaid : Bool
  unpaidFromShopId : Option String
  buyBackPrice : Rat
  alertness : Rat
  coords : Coordinates
  locOrigin : Coordinates
deriving DecidableEq

/-- A stock count in `shop_sells_stock`: a Python int or
`float(chr(105) ++ "nf")`, that is the infinite float. -/
inductive Stock where
  | fin (n : Int)
  | inf
deriving DecidableEq

/-- One entry of `shop_sells_stock`. -/
structure SellEntry where
  prototype : Obj
  price : Rat
  stock : Stock
deriving DecidableEq

/-- The outcome component returned by `Shop.process_player_purchase`. -/
inductive Outcome where
  | success
  | not_found
  | out_of_stock
  | cannot_afford
  | creation_failed
deriving DecidableEq

/-- An Area (area.py) restricted to the fields the verified claims
read: identity token `ref` (Python object identity), the string `id`,
the shop flags (`isShop` is the `is_shop` attribute; `isShopClass`
records whether the object is an instance of the `Shop` class and hence
has the `shop_sells_stock` attribute the source probes with `hasattr`),
the identity of the parent area, the origin coordinates, the grid
bounds, the grid occupant map, the `items` and `npcs` lists, and the
sell stock ledger keyed by lower case item name. -/
structure Area where
  ref : Nat
  id : String
  isShop : Bool
  isShopClass : Bool
  parentRef : Option Nat
  origin : Coordinates
  width : Int
  length : Int
  grid : Int × Int → List Obj
  items : List Obj
  npcs : List Obj
  sells : String → Option SellEntry

/-- `Area.is_valid_grid_position`. -/
def is_valid_grid_position (a : Area) (gx gy : Int) : Bool :=
  decide (0 ≤ gx ∧ gx < a.width ∧ 0 ≤ gy ∧ gy < a.length)

/-- `Area.get_global_coordinates`. -/
def get_global_coordinates (a : Area) (gx gy gz : Int) : Coordinates :=
  ⟨a.origin.x + gx, a.origin.y + gy, a.origin.z + gz⟩

/-- `Area.get_relative_coordinates`. -/
def get_relative_coordinates (a : Area) (g : Coordinates) : Int × Int × Int :=
  (g.x - a.origin.x, g.y - a.origin.y, g.z - a.origin.z)

/-- A concrete area used to instantiate theorems. -/
def areaA : Area :=
  { ref := 0
    id := "area_town_square"
    isShop := false
    isShopClass := false
    parentRef := none
    origin := ⟨3, 4, 0⟩
    width := 10
    length := 10
    grid := fun _ => []
    items := []
    npcs := []
    sells := fun _ => none }

/-! ## Connection graph (`Area.add_connection`)

Connections are a per area dict from direction strings to areas.  Since
`add_connection` mutates both endpoint areas, the embedding works on a
world map from area identity tokens to their connection dicts. -/

/-- Python `str.lower()` (ASCII case mapping, which covers every string
the program ever lowers). -/
def pyLower (s : String) : String := ⟨s.data.map Char.toLower⟩

/-- The connection dicts of all areas: area identity token, then
direction string, to connected area identity. -/
def ConnWorld := Nat → String → Option Nat

/-- The dict write `self.connections[direction.lower()] = connected_area`
performed on area `r0`. -/
def connSet (w : ConnWorld) (r0 : Nat) (k0 : String) (v : Nat) : ConnWorld :=
  fun r => if r = r0 then (fun k => if k = k0 then some v else w r0 k) else w r

/-- The `reverse_directions` dict of `Area.add_connection`. -/
def reverse_direction (d : String) : Option String :=
  if d = "north" then some "south"
  else if d = "south" then some "north"
  else if d = "east" then some "west"
  else if d = "west" then some "east"
  else if d = "up" then some "down"
  else if d = "down" then some "up"
  else none

/-- `Area.add_connection`, acting on the connection dicts of area `a`
(the receiver) and area `b` (the argument).  The source recurses into
`connected_area.add_connection` to create the reverse entry; the
recursion is embedded with a fuel argument, and stops at the second
level because the nested reverse check always finds the entry the
first level just wrote. -/
def add_connection_fuel : Nat → ConnWorld → Nat → Nat → String → ConnWorld
  | 0, w, _, _, _ => w
  | Nat.succ fuel, w, a, b, dir =>
    let d := pyLower dir
    let w1 := connSet w a d b
    match reverse_direction d with
    | none => w1
    | some rev =>
      if w1 b rev = none then add_connection_fuel fuel w1 b a rev else w1

/-- `Area.add_connection` on areas `a` and `b` (by identity token). -/
def add_connection (w : ConnWorld) (a b : Nat) (dir : String) : ConnWorld :=
  add_connection_fuel 2 w a b dir

/-- The six canonical direction labels. -/
def canonicalDirections : List String :=
  ["north", "south", "east", "west", "up", "down"]

/-! ## Grid placement (`Area.add_object_to_grid`,
`Area.remove_object_from_grid`, `NPC.move_on_grid`)

The source also writes `obj.coordinates = get_global_coordinates(...)`
on placement and, for an occupant whose class name is exactly `NPC`,
`obj.location = self`.  Python list membership compares object
identities and is unaffected by those attribute writes; occupants are
embedded as immutable values, and the claims that read coordinates
carry them as explicit state. -/

/-- `Area.add_object_to_grid`. -/
def add_object_to_grid (a : Area) (o : Obj) (gx gy : Int) : Area :=
  if is_valid_grid_position a gx gy then
    let cell := a.grid (gx, gy)
    let grid1 : Int × Int → List Obj :=
      if o ∈ cell then a.grid
      else fun c => if c = (gx, gy) then cell ++ [o] else a.grid c
    let items1 :=
      if o.kind = ObjKind.item ∧ o ∉ a.items then a.items ++ [o] else a.items
    let npcs1 :=
      if ¬(o.kind = ObjKind.item ∧ o ∉ a.items) ∧
          className o.kind = "NPC" ∧ o ∉ a.npcs then a.npcs ++ [o]
      else a.npcs
    { a with grid := grid1, items := items1, npcs := npcs1 }
  else a

/-- `Area.remove_object_from_grid`. -/
def remove_object_from_grid (a : Area) (o : Obj) (gx gy : Int) : Area :=
  let grid1 : Int × Int → List Obj :=
    if o ∈ a.grid (gx, gy) then
      fun c => if c = (gx, gy) then (a.grid (gx, gy)).erase o else a.grid c
    else a.grid
  let items1 :=
    if o.kind = ObjKind.item ∧ o ∈ a.items then a.items.erase o else a.items
  let npcs1 :=
    if ¬(o.kind = ObjKind.item ∧ o ∈ a.items) ∧
        className o.kind = "NPC" ∧ o ∈ a.npcs then a.npcs.erase o
    else a.npcs
  { a with grid := grid1, items := items1, npcs := npcs1 }

/-- `NPC.move_on_grid`: `cur` is the grid position the NPC derives from
its coordinates, `tgt` the cell after adding the chosen offset.  The
source first checks the target, then removes at the current cell and
adds at the target. -/
def move_on_grid (a : Area) (o : Obj) (cur tgt : Int × Int) : Area :=
  if is_valid_grid_position a tgt.1 tgt.2 then
    add_object_to_grid (remove_object_from_grid a o cur.1 cur.2) o tgt.1 tgt.2
  else a


/-! ## Shop ledger (`Shop.process_player_purchase`, `ItemManager`,
`Player.buy_item`, `Player.pick_up`) -/

/-- Python `round()` on the exact rational value: round half to even. -/
def roundHalfEven (q : Rat) : Int :=
  let f := ⌊q⌋
  let r := q - (f : Rat)
  if r < 1 / 2 then f
  else if 1 / 2 < r then f + 1
  else if f % 2 = 0 then f else f + 1

/-- `Item.clone`: a fresh `Item(name, description, value, pickupable)`
with the default sell value modifier, so an unpaid free instance with a
recomputed buy back price.  `freshRef` is the fresh object identity. -/
def cloneProto (freshRef : Nat) (proto : Obj) : Obj :=
  ⟨freshRef, ObjKind.item, proto.name, proto.descr, proto.value,
    proto.pickupable, false, none,
    ((roundHalfEven (proto.value * (1 / 2))) : Int), 0, ⟨0, 0, 0⟩, ⟨0, 0, 0⟩⟩

/-- `ItemManager.create_instance`: look the prototype up by lower case
name and clone it; `none` when the catalog has no such prototype. -/
def create_instance (catalog : String → Option Obj) (name : String)
    (freshRef : Nat) : Option Obj :=
  (catalog (pyLower name)).map (cloneProto freshRef)

/-- The test `item_details['stock'] <= 0 and item_details['stock'] !=
float(chr(105) ++ "nf")` of `process_player_purchase`. -/
def stockDepleted : Stock → Bool
  | Stock.fin n => decide (n ≤ 0)
  | Stock.inf => false

/-- The test `shop_item_details['stock'] > 0` of `Player.pick_up`. -/
def stockPositive : Stock → Bool
  | Stock.fin n => decide (0 < n)
  | Stock.inf => true

/-- A sell ledger entry is not negative. -/
def stockNonneg : Option SellEntry → Prop
  | none => True
  | some e =>
    match e.stock with
    | Stock.fin n => 0 ≤ n
    | Stock.inf => True

/-- The dict write `shop_sells_stock[key] = entry`. -/
def sellsSet (s : String → Option SellEntry) (k : String) (e : SellEntry) :
    String → Option SellEntry :=
  fun kk => if kk = k then some e else s kk

/-- The value `process_player_purchase` returns, together with the
state of the shop after the call (the source mutates `self`). -/
structure PurchaseResult where
  inst : Option Obj
  price : Rat
  outcome : Outcome
  shop : Area

/-- The decrement `item_details['stock'] -= 1`, skipped for unbounded
stock (`item_details['stock'] != float(chr(105) ++ "nf")`). -/
def decEntry (e : SellEntry) : SellEntry :=
  match e.stock with
  | Stock.fin n => { e with stock := Stock.fin (n - 1) }
  | Stock.inf => e

/-- The shop after the stock decrement of `process_player_purchase`. -/
def purchaseDecrement (a : Area) (q : String) (e : SellEntry) : Area :=
  { a with sells := sellsSet a.sells (pyLower q) (decEntry e) }

/-- `Shop.process_player_purchase`. -/
def process_player_purchase (a : Area) (q : String) (player_money : Rat)
    (catalog : String → Option Obj) (freshRef : Nat) : PurchaseResult :=
  match a.sells (pyLower q) with
  | none => ⟨none, 0, Outcome.not_found, a⟩
  | some e =>
    if stockDepleted e.stock then ⟨none, 0, Outcome.out_of_stock, a⟩
    else if player_money < e.price then ⟨none, 0, Outcome.cannot_afford, a⟩
    else
      match create_instance catalog e.prototype.name freshRef with
      | none => ⟨none, 0, Outcome.creation_failed, purchaseDecrement a q e⟩
      | some it => ⟨some it, e.price, Outcome.success, purchaseDecrement a q e⟩

/-- The player state (player.py): inventory, money, suspicion rating,
global coordinates and current area. -/
structure PState where
  inventory : List Obj
  money : Rat
  suspicion : Rat
  coords : Coordinates
  currentArea : Option Area

/-- `Player.reduce_suspicion_from_activity`. -/
def reduce_suspicion_from_activity (p : PState) (amount : Rat) : PState :=
  if 0 < p.suspicion then
    { p with suspicion := max 0 (p.suspicion - amount) }
  else p

/-- The scan of `Player.buy_item` for an already taken (`is_unpaid`)
item of the queried name from this shop. -/
def findUnpaidMatch (inv : List Obj) (a : Area) (q : String) : Option Obj :=
  inv.find? (fun it =>
    (pyLower it.name == pyLower q) && it.isUnpaid &&
      (it.unpaidFromShopId == some a.id))

/-- `Player.buy_item` on the current area `a`; returns the player and
area states after the call. -/
def buy_item (p : PState) (a : Area) (q : String)
    (catalog : String → Option Obj) (freshRef : Nat) : PState × Area :=
  if a.isShopClass = false then (p, a)
  else
    match findUnpaidMatch p.inventory a q with
    | some it =>
      let price := match a.sells (pyLower q) with
        | some e => e.price
        | none => it.value
      if price ≤ p.money then
        (reduce_suspicion_from_activity
          { p with money := p.money - price,
                   inventory := p.inventory.replace it
                     { it with isUnpaid := false, unpaidFromShopId := none } }
          5, a)
      else (p, a)
    | none =>
      let r := process_player_purchase a q p.money catalog freshRef
      match r.outcome, r.inst with
      | Outcome.success, some it =>
        (reduce_suspicion_from_activity
          { p with money := p.money - r.price,
                   inventory := p.inventory ++ [it] } 1, r.shop)
      | _, _ => (p, r.shop)

/-- The scan of `Player.pick_up` over the objects at the player's grid
cell for a loose item of the queried name. -/
def findLooseItem (objs : List Obj) (q : String) : Option Obj :=
  objs.find? (fun o =>
    decide (o.kind = ObjKind.item) && (pyLower o.name == pyLower q))

/-- `Player.pick_up` on the current area `a`; returns the player and
area states after the call.  Case one takes a loose, pickupable item at
the player's cell; case two creates a fresh unpaid instance from the
shop's sell stock and leaves the ledger untouched. -/
def pick_up (p : PState) (a : Area) (q : String)
    (catalog : String → Option Obj) (freshRef : Nat) : PState × Area :=
  let rel := get_relative_coordinates a p.coords
  let objs := a.grid (rel.1, rel.2.1)
  match findLooseItem objs q with
  | some o =>
    if o.pickupable then
      ({ p with inventory := p.inventory ++ [o] },
        remove_object_from_grid a o rel.1 rel.2.1)
    else (p, a)
  | none =>
    if a.isShopClass then
      match a.sells (pyLower q) with
      | some e =>
        if stockPositive e.stock then
          match create_instance catalog e.prototype.name freshRef with
          | some it =>
            ({ p with
                inventory := p.inventory ++
                  [{ it with isUnpaid := true, unpaidFromShopId := some a.id }],
                suspicion := p.suspicion + 5 }, a)
          | none => (p, a)
        else (p, a)
      | none => (p, a)
    else (p, a)

/-- A concrete item prototype. -/
def churroProto : Obj :=
  ⟨7, ObjKind.item, "Churro", "A delicious cinnamon sugar treat.", 5,
    true, false, none, 3, 0, ⟨0, 0, 0⟩, ⟨0, 0, 0⟩⟩

/-- A concrete shop selling churros at price 5 with finite stock 3. -/
def shopB : Area :=
  { ref := 2
    id := "shop_emporium"
    isShop := true
    isShopClass := true
    parentRef := some 1
    origin := ⟨2, 0, 0⟩
    width := 6
    length := 4
    grid := fun _ => []
    items := []
    npcs := []
    sells := fun k => if k = "churro" then
        some ⟨churroProto, 5, Stock.fin 3⟩ else none }

/-- A catalog holding the churro prototype. -/
def catalogB : String → Option Obj :=
  fun k => if k = "churro" then some churroProto else none

/-- The empty catalog (instance creation always fails). -/
def catalogEmpty : String → Option Obj := fun _ => none

/-- A player standing at the centre of `shopB` holding no items. -/
def playerB : PState :=
  { inventory := []
    money := 4
    suspicion := 0
    coords := ⟨5, 2, 0⟩
    currentArea := some shopB }

/-! ## Theft detection (`Player.check_for_theft`,
`Player.set_current_area`)

At player.py:405 the source runs `player_gx, player_gy =
shop_left.get_relative_coordinates(self.coordinates)`.
`get_relative_coordinates` always returns a three component tuple (its
third component is the z difference; every other call site slices with
`[:2]` or indexes), so this unpacking into two names raises
`ValueError` and the staff detection loop of lines 407 to 426 below it
can never execute.  The embedding therefore returns a `PyResult`: a
normal return, or an uncaught `ValueError` carrying the state of the
player object at the moment of the raise (the attribute writes already
performed, in particular the immediate suspicion increase of line 396,
persist on the object). -/

/-- The unpaid items from one specific shop
(`item.is_unpaid and item.unpaid_from_shop_id == shop_left.id`). -/
def unpaidFrom (inv : List Obj) (sid : String) : List Obj :=
  inv.filter (fun it => it.isUnpaid && (it.unpaidFromShopId == some sid))

/-- `[npc for npc in shop_left.npcs if npc.__class__.__name__ ==
chr(34) ++ CastMember ++ chr(34)]`. -/
def staffOf (a : Area) : List Obj :=
  a.npcs.filter (fun o => className o.kind == "CastMember")

/-- The suspicion rating right after the immediate `10 * n` increase of
an attempted exit (player.py:396). -/
def suspAfterAttempt (p : PState) (shop : Area) : Rat :=
  p.suspicion + 10 * ((unpaidFrom p.inventory shop.id).length : Rat)

/-- The outcome of a call that may raise: `ok` is a normal return;
`valueError` is an uncaught Python `ValueError`, carrying the player
state at the moment the exception is raised. -/
inductive PyResult where
  | ok (p : PState)
  | valueError (p : PState)

/-- `Player.check_for_theft`.  Not a shop, or no unpaid item from this
shop: return unchanged.  Otherwise the suspicion rises by `10 * n`
immediately (line 396); with no staff member in `shop.npcs` the
attempt succeeds silently; with staff present, line 405 unpacks the
three component tuple of `get_relative_coordinates` into two names and
raises `ValueError` with the suspicion increase already applied - the
detection loop after it is unreachable.  The `draws` stream stands for
the uniform samples the loop would consume; no sample is ever drawn. -/
def check_for_theft (p : PState) (shop : Area)
    (draws : Nat → Rat) : PyResult :=
  if shop.isShop = false then PyResult.ok p
  else if unpaidFrom p.inventory shop.id = [] then PyResult.ok p
  else if staffOf shop = [] then
    PyResult.ok { p with suspicion :=
      p.suspicion + 10 * ((unpaidFrom p.inventory shop.id).length : Rat) }
  else
    PyResult.valueError { p with suspicion :=
      p.suspicion + 10 * ((unpaidFrom p.inventory shop.id).length : Rat) }

/-- The coordinates `Player.set_current_area` assigns before the theft
check: the requested cell, defaulting to the grid centre (Python floor
division), clamped into bounds, taken to global coordinates. -/
def entryCoords (area : Area) (gx gy : Option Int) : Coordinates :=
  get_global_coordinates area
    (max 0 (min (gx.getD (Int.fdiv area.width 2)) (area.width - 1)))
    (max 0 (min (gy.getD (Int.fdiv area.length 2)) (area.length - 1))) 0

/-- `Player.set_current_area` restricted to its state effects: set the
current area and coordinates, then run the theft check when the area
being left is a shop and the destination is neither that shop itself
nor its direct parent (Python compares object identities, embedded as
the `ref` tokens).  An exception raised by the theft check propagates
uncaught.  Output and `look_around` are omitted. -/
def set_current_area (p : PState) (area : Area)
    (gx gy : Option Int) (draws : Nat → Rat) : PyResult :=
  match p.currentArea with
  | none =>
    PyResult.ok { p with currentArea := some area, coords := entryCoords area gx gy }
  | some old =>
    if old.isShop = true ∧ area.ref ≠ old.ref ∧
        old.parentRef ≠ some area.ref then
      check_for_theft
        { p with currentArea := some area, coords := entryCoords area gx gy }
        old draws
    else
      PyResult.ok { p with currentArea := some area, coords := entryCoords area gx gy }

/-- A concrete cast member placed in `shopC` at grid cell (1, 1). -/
def cmObj : Obj :=
  ⟨200, ObjKind.castMember, "CM Alice", "A helpful Cast Member.", 0,
    true, false, none, 0, 1 / 2, ⟨3, 1, 0⟩, ⟨2, 0, 0⟩⟩

/-- A concrete unpaid item taken from `shopC`. -/
def unpaidChurro : Obj :=
  ⟨201, ObjKind.item, "Churro", "A delicious cinnamon sugar treat.", 5,
    true, true, some "shop_theft", 3, 0, ⟨0, 0, 0⟩, ⟨0, 0, 0⟩⟩

/-- A concrete shop with one cast member on its `npcs` list. -/
def shopC : Area :=
  { ref := 30
    id := "shop_theft"
    isShop := true
    isShopClass := true
    parentRef := some 31
    origin := ⟨2, 0, 0⟩
    width := 6
    length := 4
    grid := fun _ => []
    items := []
    npcs := [cmObj]
    sells := fun _ => none }

/-- A concrete destination area that is neither `shopC` nor its
parent. -/
def areaD : Area :=
  { ref := 32
    id := "land_main_street"
    isShop := false
    isShopClass := false
    parentRef := none
    origin := ⟨0, 0, 0⟩
    width := 15
    length := 5
    grid := fun _ => []
    items := []
    npcs := []
    sells := fun _ => none }

/-- A player inside `shopC` holding one unpaid item from it. -/
def playerC : PState :=
  { inventory := [unpaidChurro]
    money := 50
    suspicion := 0
    coords := ⟨4, 2, 0⟩
    currentArea := some shopC }

/-- `shopC` without any staff. -/
def shopE : Area :=
  { ref := 33
    id := "shop_theft"
    isShop := true
    isShopClass := true
    parentRef := some 31
    origin := ⟨2, 0, 0⟩
    width := 6
    length := 4
    grid := fun _ => []
    items := []
    npcs := []
    sells := fun _ => none }

/-- A player inside `shopE` holding one unpaid item from it. -/
def playerE : PState :=
  { inventory := [unpaidChurro]
    money := 50
    suspicion := 0
    coords := ⟨4, 2, 0⟩
    currentArea := some shopE }

/-! ## Reachable placement states

`Area.__init__` creates every area with an empty grid, empty `items`
and empty `npcs`.  The only statements of the program that ever write
an `npcs` list afterwards are the two appends and removes inside
`add_object_to_grid` and `remove_object_from_grid` (all movement and
placement code funnels through them); every other mutation of an area
leaves `npcs` untouched.  `ReachableArea` closes the initial state
under exactly these possibilities. -/

inductive ReachableArea : Area → Prop where
  | init (a : Area) (hg : a.grid = fun _ => []) (hi : a.items = [])
      (hn : a.npcs = []) : ReachableArea a
  | add (a : Area) (o : Obj) (gx gy : Int) (h : ReachableArea a) :
      ReachableArea (add_object_to_grid a o gx gy)
  | remove (a : Area) (o : Obj) (gx gy : Int) (h : ReachableArea a) :
      ReachableArea (remove_object_from_grid a o gx gy)
  | other (a b : Area) (h : ReachableArea a) (hn : b.npcs = a.npcs) :
      ReachableArea b

/-- Placement sequences in which every `add_object_to_grid` targets an
occupant that is nowhere on the grid, and every
`remove_object_from_grid` and `move_on_grid` names the cell the
occupant actually occupies (which is what drop, pickup and NPC
movement do). -/
inductive GoodReachable : Area → Prop where
  | init (a : Area) (hg : a.grid = fun _ => []) (hi : a.items = [])
      (hn : a.npcs = []) : GoodReachable a
  | place (a : Area) (o : Obj) (gx gy : Int) (h : GoodReachable a)
      (hfresh : ∀ c, o ∉ a.grid c) :
      GoodReachable (add_object_to_grid a o gx gy)
  | removeAt (a : Area) (o : Obj) (gx gy : Int) (h : GoodReachable a)
      (hcur : ∀ c, o ∈ a.grid c → c = (gx, gy)) :
      GoodReachable (remove_object_from_grid a o gx gy)
  | moveAt (a : Area) (o : Obj) (cur tgt : Int × Int) (h : GoodReachable a)
      (hcur : ∀ c, o ∈ a.grid c → c = cur) :
      GoodReachable (move_on_grid a o cur tgt)

/-- The bookkeeping invariant of an area: an occupant sits under at
most one cell, cells and the two membership lists have no duplicates,
`items` holds exactly the placed occupants of class `Item`, and `npcs`
holds exactly the placed occupants whose class name is exactly `NPC`. -/
def GridInv (a : Area) : Prop :=
  (∀ o c c', o ∈ a.grid c → o ∈ a.grid c' → c = c') ∧
  (∀ c, (a.grid c).Nodup) ∧
  a.items.Nodup ∧
  a.npcs.Nodup ∧
  (∀ o, o ∈ a.items ↔ (o.kind = ObjKind.item ∧ ∃ c, o ∈ a.grid c)) ∧
  (∀ o, o ∈ a.npcs ↔ (className o.kind = "NPC" ∧ ∃ c, o ∈ a.grid c))

/-- A concrete item occupant. -/
def itemObj : Obj :=
  ⟨100, ObjKind.item, "Lost Map", "A slightly crumpled park map.", 1,
    true, false, none, 1, 0, ⟨0, 0, 0⟩, ⟨0, 0, 0⟩⟩

/-- `areaA` after one well formed placement. -/
def c4GoodArea : Area := add_object_to_grid areaA itemObj 2 3

/-- `areaA` after placing the same occupant at two different cells
without removing it in between. -/
def c4DoubleArea : Area :=
  add_object_to_grid (add_object_to_grid areaA itemObj 0 0) itemObj 1 1

/-! ## NPC per turn updates (`NPC.update`, `ParkCharacter.update`)

The grid list bookkeeping done by `move_on_grid` is the placement
model's subject above; here the NPC side effects of one `update` call
are embedded: cooldown, coordinates, and the produced message.  The
identity comparison `player.current_area == self.location` is embedded
through area identity tokens. -/

/-- `Coordinates.distance_to` (coordinates.py): Cartesian distance on
the `x` and `y` components. -/
noncomputable def distance_to (a b : Coordinates) : Real :=
  Real.sqrt (((a.x - b.x : Int) : Real) ^ 2 + ((a.y - b.y : Int) : Real) ^ 2)

/-- The per NPC state `NPC.update` touches: `action_cooldown`,
coordinates, the location area (identity token, origin and bounds) and
the name fields the messages use. -/
structure NPCState where
  cooldown : Int
  coords : Coordinates
  locRef : Option Nat
  locOrigin : Coordinates
  locWidth : Int
  locLength : Int
  name : String
  signatureMove : String

/-- The player as the update routines read it: current area identity
and global coordinates. -/
structure PlayerView where
  areaRef : Option Nat
  coords : Coordinates

/-- The random outcomes one `update` call may consume: the 0.3 movement
roll, the direction choice, `randint(2, 5)`, the 0.2 signature roll and
`randint(3, 6)`. -/
structure NPCRand where
  moveRoll : Rat
  dirIdx : Fin 5
  moveCooldown : Int
  sigRoll : Rat
  sigCooldown : Int

/-- `random.choice` over `[(0,1), (0,-1), (1,0), (-1,0), (0,0)]`. -/
def moveOffsets : Fin 5 → Int × Int
  | ⟨0, _⟩ => (0, 1)
  | ⟨1, _⟩ => (0, -1)
  | ⟨2, _⟩ => (1, 0)
  | ⟨3, _⟩ => (-1, 0)
  | ⟨4, _⟩ => (0, 0)

/-- Validity of a cell of the NPC's location area. -/
def npcValidCell (s : NPCState) (c : Int × Int) : Bool :=
  decide (0 ≤ c.1 ∧ c.1 < s.locWidth ∧ 0 ≤ c.2 ∧ c.2 < s.locLength)

section NPCClassical

open scoped Classical

/-- `NPC.update`: on positive cooldown, decrement and produce nothing;
otherwise, when located and the 0.3 roll succeeds, pick one of the five
offsets, attempt `move_on_grid` for a nontrivial offset, emit the
movement message only when the move succeeded and the player is in the
same area within distance 10 of the post move coordinates, and in any
of these cases reset the cooldown to the drawn `randint(2, 5)`. -/
noncomputable def npc_update (s : NPCState) (player : Option PlayerView)
    (r : NPCRand) : NPCState × Option String :=
  if 0 < s.cooldown then ({ s with cooldown := s.cooldown - 1 }, none)
  else if s.locRef.isSome = true ∧ r.moveRoll < 0.3 then
    let d := moveOffsets r.dirIdx
    let tgt := (s.coords.x - s.locOrigin.x + d.1, s.coords.y - s.locOrigin.y + d.2)
    let moved := d ≠ (0, 0) ∧ npcValidCell s tgt = true
    let s1 := if moved then
        { s with coords := ⟨s.locOrigin.x + tgt.1, s.locOrigin.y + tgt.2, s.locOrigin.z⟩ }
      else s
    ({ s1 with cooldown := r.moveCooldown },
      if moved ∧ (∃ pv, player = some pv ∧ pv.areaRef = s.locRef ∧
          distance_to s1.coords pv.coords ≤ 10) then
        some (s.name ++ " moves.")
      else none)
  else (s, none)

/-- `ParkCharacter.update`: run the base update, and when it produced
no message, the cooldown now sits at 0 and the separate 0.2 roll
succeeds: with the player present in the same area, emit the signature
phrase and reset the cooldown to the drawn `randint(3, 6)` only within
distance 10; with the player absent or in another area, reset the
cooldown without a message.  (When the player is in the same area but
out of range, neither happens.) -/
noncomputable def park_character_update (s : NPCState)
    (player : Option PlayerView) (r : NPCRand) : NPCState × Option String :=
  if (npc_update s player r).2 = none ∧
      (npc_update s player r).1.cooldown = 0 ∧ r.sigRoll < 0.2 then
    match player with
    | some pv =>
      if pv.areaRef = (npc_update s player r).1.locRef then
        (if distance_to (npc_update s player r).1.coords pv.coords ≤ 10 then
          ({ (npc_update s player r).1 with cooldown := r.sigCooldown },
            some ((npc_update s player r).1.name ++ " " ++
              (npc_update s player r).1.signatureMove ++ "."))
        else npc_update s player r)
      else ({ (npc_update s player r).1 with cooldown := r.sigCooldown },
        (npc_update s player r).2)
    | none => ({ (npc_update s player r).1 with cooldown := r.sigCooldown },
        (npc_update s player r).2)
  else npc_update s player r

end NPCClassical

/-- A scripted character with cooldown 0, located in area 7 at the
origin cell. -/
def mickeyS : NPCState :=
  { cooldown := 0
    coords := ⟨0, 0, 0⟩
    locRef := some 7
    locOrigin := ⟨0, 0, 0⟩
    locWidth := 30
    locLength := 30
    name := "Mickey Mouse"
    signatureMove := "gives a friendly wave" }

/-- A player in the same area as `mickeyS` at distance 20. -/
def playerFar : PlayerView :=
  { areaRef := some 7
    coords := ⟨0, 20, 0⟩ }

/-- Random outcomes: failed movement roll, successful signature roll,
drawn signature cooldown 4. -/
def randSig : NPCRand :=
  { moveRoll := 1 / 2
    dirIdx := ⟨4, by decide⟩
    moveCooldown := 3
    sigRoll := 1 / 10
    sigCooldown := 4 }

/-- A shop built from an empty state by placing a CastMember occupant
on its grid. -/
def shopF : Area :=
  add_object_to_grid
    { ref := 34
      id := "shop_f"
      isShop := true
      isShopClass := true
      parentRef := some 35
      origin := ⟨0, 0, 0⟩
      width := 6
      length := 4
      grid := fun _ => []
      items := []
      npcs := []
      sells := fun _ => none }
    cmObj 1 1

/-! ## Theorems -/

/-- C5: for every Area and every grid position inside its bounds,
converting to global coordinates and back yields the same position in
the first two components. -/
theorem c5_coordinate_roundtrip (a : Area) (gx gy : Int)
    (hx0 : 0 ≤ gx) (hx1 : gx < a.width) (hy0 : 0 ≤ gy) (hy1 : gy < a.length) :
    (get_relative_coordinates a (get_global_coordinates a gx gy 0)).1 = gx ∧
    (get_relative_coordinates a (get_global_coordinates a gx gy 0)).2.1 = gy := by
  constructor <;> simp [get_relative_coordinates, get_global_coordinates]


theorem c5_coordinate_roundtrip_witness :
    (0:Int) ≤ 2 ∧ (2:Int) < areaA.width ∧ (0:Int) ≤ 7 ∧ (7:Int) < areaA.length ∧
    (get_relative_coordinates areaA (get_global_coordinates areaA 2 7 0)).1 = 2 ∧
    (get_relative_coordinates areaA (get_global_coordinates areaA 2 7 0)).2.1 = 7 := by
  refine ⟨by decide, by decide, by decide, by decide, ?_, ?_⟩
  · exact (c5_coordinate_roundtrip areaA 2 7 (by decide) (by decide) (by decide) (by decide)).1
  · exact (c5_coordinate_roundtrip areaA 2 7 (by decide) (by decide) (by decide) (by decide)).2


theorem connSet_apply (w : ConnWorld) (r0 : Nat) (k0 : String) (v : Nat)
    (r : Nat) (k : String) :
    connSet w r0 k0 v r k =
      if r = r0 then (if k = k0 then some v else w r0 k) else w r k := by
  unfold connSet
  split <;> rfl


theorem reverse_direction_eq_none (d : String)
    (h : d ∉ canonicalDirections) : reverse_direction d = none := by
  simp only [canonicalDirections, List.mem_cons, List.not_mem_nil, or_false,
    not_or] at h
  obtain ⟨h1, h2, h3, h4, h5, h6⟩ := h
  simp [reverse_direction, h1, h2, h3, h4, h5, h6]


theorem add_connection_canonical (w : ConnWorld) (a b : Nat) (d r : String)
    (hd : pyLower d = d) (hr : pyLower r = r)
    (h1 : reverse_direction d = some r) (h2 : reverse_direction r = some d)
    (hne : r ≠ d) :
    add_connection w a b d a d = some b ∧
    (w b r = none → add_connection w a b d b r = some a) ∧
    (∀ x, w b r = some x → add_connection w a b d b r = some x) := by
  have hw1ad : connSet w a d b a d = some b := by simp [connSet_apply]
  have hw1br : connSet w a d b b r = w b r := by
    rw [connSet_apply]
    by_cases hba : b = a
    · subst hba; simp [hne]
    · simp [hba]
  unfold add_connection add_connection_fuel
  simp only [hd, h1]
  by_cases hw : connSet w a d b b r = none
  · rw [if_pos hw]
    unfold add_connection_fuel
    simp only [hr, h2]
    have hstop : connSet (connSet w a d b) b r a a d = some b := by
      rw [connSet_apply]
      by_cases hab : a = b
      · rw [if_pos hab, if_neg hne.symm]
        subst hab
        exact hw1ad
      · rw [if_neg hab]
        exact hw1ad
    rw [if_neg (by simp [hstop])]
    refine ⟨hstop, ?_, ?_⟩
    · intro _
      simp [connSet_apply]
    · intro x hx
      rw [hw1br, hx] at hw
      exact absurd hw (by simp)
  · rw [if_neg hw]
    refine ⟨hw1ad, ?_, ?_⟩
    · intro h0
      rw [hw1br, h0] at hw
      exact absurd rfl hw
    · intro x hx
      rw [hw1br, hx]


/-- C7: connecting `a` to `b` under a canonical direction label stores
the directed connection on `a` and creates the opposed reverse
connection on `b` exactly when `b` had no entry under the reverse
label; connecting under a non canonical label stores only the directed
connection on `a` and changes nothing else. -/
theorem c7_add_connection (w : ConnWorld) (a b : Nat) (dir rev : String) :
    (dir ∈ canonicalDirections → reverse_direction dir = some rev →
      (add_connection w a b dir a dir = some b ∧
       (w b rev = none → add_connection w a b dir b rev = some a) ∧
       (∀ x, w b rev = some x → add_connection w a b dir b rev = some x)))
    ∧
    (pyLower dir ∉ canonicalDirections →
      (add_connection w a b dir a (pyLower dir) = some b ∧
       (∀ r, r ≠ a → ∀ k, add_connection w a b dir r k = w r k) ∧
       (∀ k, k ≠ pyLower dir → add_connection w a b dir a k = w a k))) := by
  constructor
  · intro hmem hrev
    fin_cases hmem <;>
      (simp only [reverse_direction, if_pos, if_neg, reduceIte] at hrev) <;>
      (cases hrev) <;>
      exact add_connection_canonical w a b _ _ (by decide) (by decide)
        (by decide) (by decide) (by decide)
  · intro hmem
    have hrevnone : reverse_direction (pyLower dir) = none :=
      reverse_direction_eq_none _ hmem
    unfold add_connection add_connection_fuel
    simp only [hrevnone]
    refine ⟨by simp [connSet_apply], ?_, ?_⟩
    · intro r hr k
      simp [connSet_apply, hr]
    · intro k hk
      simp [connSet_apply, hk]

theorem c7_add_connection_witness :
    ("north" ∈ canonicalDirections ∧
     reverse_direction "north" = some "south" ∧
     add_connection (fun _ _ => none) 0 1 "north" 0 "north" = some 1 ∧
     add_connection (fun _ _ => none) 0 1 "north" 1 "south" = some 0) ∧
    (pyLower "enter shop" ∉ canonicalDirections ∧
     add_connection (fun _ _ => none) 0 1 "enter shop" 0 (pyLower "enter shop") = some 1 ∧
     add_connection (fun _ _ => none) 0 1 "enter shop" 1 "south" = none) := by
  have h1 := (c7_add_connection (fun _ _ => none) 0 1 "north" "south").1
    (by decide) (by decide)
  have h2 := (c7_add_connection (fun _ _ => none) 0 1 "enter shop" "").2
    (by decide)
  exact ⟨⟨by decide, by decide, h1.1, h1.2.1 rfl⟩,
         ⟨by decide, h2.1, h2.2.1 1 (by decide) "south"⟩⟩


theorem className_eq_npc_iff (k : ObjKind) :
    className k = "NPC" ↔ k = ObjKind.npcBase := by
  cases k <;> decide

theorem add_eq_of_invalid (a : Area) (o : Obj) (gx gy : Int)
    (hv : ¬ is_valid_grid_position a gx gy = true) :
    add_object_to_grid a o gx gy = a := by
  simp [add_object_to_grid, hv]

theorem add_grid_eq (a : Area) (o : Obj) (gx gy : Int)
    (hv : is_valid_grid_position a gx gy = true)
    (hno : o ∉ a.grid (gx, gy)) :
    (add_object_to_grid a o gx gy).grid =
      fun c => if c = (gx, gy) then a.grid (gx, gy) ++ [o] else a.grid c := by
  simp [add_object_to_grid, hv, hno]

theorem add_items_eq (a : Area) (o : Obj) (gx gy : Int)
    (hv : is_valid_grid_position a gx gy = true) :
    (add_object_to_grid a o gx gy).items =
      if o.kind = ObjKind.item ∧ o ∉ a.items then a.items ++ [o]
      else a.items := by
  simp [add_object_to_grid, hv]

theorem add_npcs_eq (a : Area) (o : Obj) (gx gy : Int)
    (hv : is_valid_grid_position a gx gy = true) :
    (add_object_to_grid a o gx gy).npcs =
      if ¬(o.kind = ObjKind.item ∧ o ∉ a.items) ∧
          className o.kind = "NPC" ∧ o ∉ a.npcs then a.npcs ++ [o]
      else a.npcs := by
  simp only [add_object_to_grid, if_pos hv]

theorem add_grid_apply (a : Area) (o : Obj) (gx gy : Int)
    (hv : is_valid_grid_position a gx gy = true)
    (hno : o ∉ a.grid (gx, gy)) (c : Int × Int) :
    (add_object_to_grid a o gx gy).grid c =
      if c = (gx, gy) then a.grid (gx, gy) ++ [o] else a.grid c := by
  rw [add_grid_eq a o gx gy hv hno]

theorem mem_add_grid (a : Area) (o : Obj) (gx gy : Int)
    (hv : is_valid_grid_position a gx gy = true)
    (hno : o ∉ a.grid (gx, gy)) (p : Obj) (c : Int × Int) :
    (p ∈ (add_object_to_grid a o gx gy).grid c ↔
      ((c = (gx, gy) ∧ (p ∈ a.grid (gx, gy) ∨ p = o)) ∨
       (c ≠ (gx, gy) ∧ p ∈ a.grid c))) := by
  rw [add_grid_eq a o gx gy hv hno]
  by_cases hc : c = (gx, gy) <;> simp [hc]

theorem remove_grid_eq (a : Area) (o : Obj) (gx gy : Int)
    (ho : o ∈ a.grid (gx, gy)) :
    (remove_object_from_grid a o gx gy).grid =
      fun c => if c = (gx, gy) then (a.grid (gx, gy)).erase o
      else a.grid c := by
  simp [remove_object_from_grid, ho]

theorem remove_grid_apply (a : Area) (o : Obj) (gx gy : Int)
    (ho : o ∈ a.grid (gx, gy)) (c : Int × Int) :
    (remove_object_from_grid a o gx gy).grid c =
      if c = (gx, gy) then (a.grid (gx, gy)).erase o else a.grid c := by
  rw [remove_grid_eq a o gx gy ho]

theorem remove_grid_eq_of_absent (a : Area) (o : Obj) (gx gy : Int)
    (ho : o ∉ a.grid (gx, gy)) :
    (remove_object_from_grid a o gx gy).grid = a.grid := by
  simp [remove_object_from_grid, ho]

theorem remove_items_eq (a : Area) (o : Obj) (gx gy : Int) :
    (remove_object_from_grid a o gx gy).items =
      if o.kind = ObjKind.item ∧ o ∈ a.items then a.items.erase o
      else a.items := rfl

theorem remove_npcs_eq (a : Area) (o : Obj) (gx gy : Int) :
    (remove_object_from_grid a o gx gy).npcs =
      if ¬(o.kind = ObjKind.item ∧ o ∈ a.items) ∧
          className o.kind = "NPC" ∧ o ∈ a.npcs then a.npcs.erase o
      else a.npcs := rfl

theorem gridInv_add (a : Area) (o : Obj) (gx gy : Int)
    (hfresh : ∀ c, o ∉ a.grid c) (h : GridInv a) :
    GridInv (add_object_to_grid a o gx gy) := by
  obtain ⟨h1, h2, h3, h4, h5, h6⟩ := h
  by_cases hv : is_valid_grid_position a gx gy = true
  · have hno : o ∉ a.grid (gx, gy) := hfresh _
    have hoi : o ∉ a.items := fun hm => by
      obtain ⟨-, c, hc⟩ := (h5 o).1 hm
      exact hfresh c hc
    have hon : o ∉ a.npcs := fun hm => by
      obtain ⟨-, c, hc⟩ := (h6 o).1 hm
      exact hfresh c hc
    have hg := mem_add_grid a o gx gy hv hno
    have hi := add_items_eq a o gx gy hv
    have hn := add_npcs_eq a o gx gy hv
    refine ⟨?_, ?_, ?_, ?_, ?_, ?_⟩
    · intro p c c' hc hc'
      rw [hg p c] at hc
      rw [hg p c'] at hc'
      rcases hc with ⟨hct, hp⟩ | ⟨hct, hp⟩ <;>
        rcases hc' with ⟨hct', hp'⟩ | ⟨hct', hp'⟩
      · rw [hct, hct']
      · rcases hp with hp | hp
        · exact absurd (h1 p _ _ hp hp') (Ne.symm hct')
        · exact absurd hp' (by rw [hp]; exact hfresh c')
      · rcases hp' with hp' | hp'
        · exact absurd (h1 p _ _ hp hp') hct
        · exact absurd hp (by rw [hp']; exact hfresh c)
      · exact h1 p c c' hp hp'
    · intro c
      rw [add_grid_apply a o gx gy hv hno c]
      by_cases hc : c = (gx, gy)
      · rw [if_pos hc]
        refine (h2 _).append (List.nodup_singleton o) ?_
        intro x hx hx'
        rw [List.mem_singleton] at hx'
        exact hno (hx' ▸ hx)
      · rw [if_neg hc]
        exact h2 c
    · rw [hi]
      split_ifs with hcon
      · refine h3.append (List.nodup_singleton o) ?_
        intro x hx hx'
        rw [List.mem_singleton] at hx'
        exact hcon.2 (hx' ▸ hx)
      · exact h3
    · rw [hn]
      split_ifs with hcon
      · refine h4.append (List.nodup_singleton o) ?_
        intro x hx hx'
        rw [List.mem_singleton] at hx'
        exact hcon.2.2 (hx' ▸ hx)
      · exact h4
    · intro p
      rw [hi]
      by_cases hpo : p = o
      · subst hpo
        by_cases hk : p.kind = ObjKind.item
        · rw [if_pos ⟨hk, hoi⟩]
          simp only [List.mem_append, List.mem_singleton, or_true,
            true_iff]
          exact ⟨hk, (gx, gy), by rw [hg p (gx, gy)]; exact Or.inl ⟨rfl, Or.inr rfl⟩⟩
        · rw [if_neg (fun hcon => hk hcon.1)]
          constructor
          · intro hm; exact absurd hm hoi
          · intro hm; exact absurd hm.1 hk
      · have hmem : p ∈ (if o.kind = ObjKind.item ∧ o ∉ a.items
            then a.items ++ [o] else a.items) ↔ p ∈ a.items := by
          split_ifs with hcon
          · simp [hpo]
          · exact Iff.rfl
        rw [hmem, h5 p]
        constructor
        · rintro ⟨hk, c, hc⟩
          refine ⟨hk, c, ?_⟩
          rw [hg p c]
          by_cases hc' : c = (gx, gy)
          · exact Or.inl ⟨hc', Or.inl (hc' ▸ hc)⟩
          · exact Or.inr ⟨hc', hc⟩
        · rintro ⟨hk, c, hc⟩
          rw [hg p c] at hc
          rcases hc with ⟨hct, hp | hp⟩ | ⟨hct, hp⟩
          · exact ⟨hk, (gx, gy), hp⟩
          · exact absurd hp hpo
          · exact ⟨hk, c, hp⟩
    · intro p
      rw [hn]
      by_cases hpo : p = o
      · subst hpo
        by_cases hk : className p.kind = "NPC"
        · have hkb : p.kind = ObjKind.npcBase := (className_eq_npc_iff _).1 hk
          rw [if_pos ⟨fun hcon => by rw [hkb] at hcon; exact absurd hcon.1 (by decide),
            hk, hon⟩]
          simp only [List.mem_append, List.mem_singleton, or_true, true_iff]
          exact ⟨hk, (gx, gy), by rw [hg p (gx, gy)]; exact Or.inl ⟨rfl, Or.inr rfl⟩⟩
        · rw [if_neg (fun hcon => hk hcon.2.1)]
          constructor
          · intro hm; exact absurd hm hon
          · intro hm; exact absurd hm.1 hk
      · have hmem : p ∈ (if ¬(o.kind = ObjKind.item ∧ o ∉ a.items) ∧
            className o.kind = "NPC" ∧ o ∉ a.npcs
            then a.npcs ++ [o] else a.npcs) ↔ p ∈ a.npcs := by
          split_ifs with hcon
          · simp [hpo]
          · exact Iff.rfl
        rw [hmem, h6 p]
        constructor
        · rintro ⟨hk, c, hc⟩
          refine ⟨hk, c, ?_⟩
          rw [hg p c]
          by_cases hc' : c = (gx, gy)
          · exact Or.inl ⟨hc', Or.inl (hc' ▸ hc)⟩
          · exact Or.inr ⟨hc', hc⟩
        · rintro ⟨hk, c, hc⟩
          rw [hg p c] at hc
          rcases hc with ⟨hct, hp | hp⟩ | ⟨hct, hp⟩
          · exact ⟨hk, (gx, gy), hp⟩
          · exact absurd hp hpo
          · exact ⟨hk, c, hp⟩
  · rw [add_eq_of_invalid a o gx gy hv]
    exact ⟨h1, h2, h3, h4, h5, h6⟩

theorem gridInv_remove (a : Area) (o : Obj) (gx gy : Int)
    (hcur : ∀ c, o ∈ a.grid c → c = (gx, gy)) (h : GridInv a) :
    GridInv (remove_object_from_grid a o gx gy) := by
  obtain ⟨h1, h2, h3, h4, h5, h6⟩ := h
  by_cases hin : o ∈ a.grid (gx, gy)
  · have hg : ∀ p c, (p ∈ (remove_object_from_grid a o gx gy).grid c ↔
        ((c = (gx, gy) ∧ p ≠ o ∧ p ∈ a.grid (gx, gy)) ∨
         (c ≠ (gx, gy) ∧ p ∈ a.grid c))) := by
      intro p c
      rw [remove_grid_apply a o gx gy hin c]
      by_cases hc : c = (gx, gy)
      · simp [hc, (h2 (gx, gy)).mem_erase_iff]
      · simp [hc]
    refine ⟨?_, ?_, ?_, ?_, ?_, ?_⟩
    · intro p c c' hc hc'
      rw [hg p c] at hc
      rw [hg p c'] at hc'
      rcases hc with ⟨hct, -, hp⟩ | ⟨hct, hp⟩ <;>
        rcases hc' with ⟨hct', hp'⟩ | ⟨hct', hp'⟩
      · rw [hct, hct']
      · exact absurd (h1 p _ _ hp hp') (Ne.symm hct')
      · exact absurd (h1 p _ _ hp hp'.2) hct
      · exact h1 p c c' hp hp'
    · intro c
      rw [remove_grid_apply a o gx gy hin c]
      by_cases hc : c = (gx, gy)
      · rw [if_pos hc]; exact (h2 _).erase o
      · rw [if_neg hc]; exact h2 c
    · rw [remove_items_eq]
      split_ifs with hcon
      · exact h3.erase o
      · exact h3
    · rw [remove_npcs_eq]
      split_ifs with hcon
      · exact h4.erase o
      · exact h4
    · intro p
      rw [remove_items_eq]
      by_cases hpo : p = o
      · subst hpo
        by_cases hk : p.kind = ObjKind.item
        · have hpi : p ∈ a.items := (h5 p).2 ⟨hk, (gx, gy), hin⟩
          rw [if_pos ⟨hk, hpi⟩]
          constructor
          · intro hm
            exact absurd rfl (h3.mem_erase_iff.1 hm).1
          · rintro ⟨-, c, hc⟩
            rw [hg p c] at hc
            rcases hc with ⟨-, hne, -⟩ | ⟨hct, hp⟩
            · exact absurd rfl hne
            · exact absurd (hcur c hp) hct
        · rw [if_neg (fun hcon => hk hcon.1)]
          constructor
          · intro hm
            exact absurd ((h5 p).1 hm).1 hk
          · rintro ⟨hk', -⟩
            exact absurd hk' hk
      · have hmem : p ∈ (if o.kind = ObjKind.item ∧ o ∈ a.items
            then a.items.erase o else a.items) ↔ p ∈ a.items := by
          split_ifs with hcon
          · rw [h3.mem_erase_iff]; simp [hpo]
          · exact Iff.rfl
        rw [hmem, h5 p]
        constructor
        · rintro ⟨hk, c, hc⟩
          refine ⟨hk, c, ?_⟩
          rw [hg p c]
          by_cases hc' : c = (gx, gy)
          · exact Or.inl ⟨hc', hpo, hc' ▸ hc⟩
          · exact Or.inr ⟨hc', hc⟩
        · rintro ⟨hk, c, hc⟩
          rw [hg p c] at hc
          rcases hc with ⟨hct, -, hp⟩ | ⟨-, hp⟩
          · exact ⟨hk, (gx, gy), hp⟩
          · exact ⟨hk, c, hp⟩
    · intro p
      rw [remove_npcs_eq]
      by_cases hpo : p = o
      · subst hpo
        by_cases hk : className p.kind = "NPC"
        · have hkb : p.kind = ObjKind.npcBase := (className_eq_npc_iff _).1 hk
          have hpn : p ∈ a.npcs := (h6 p).2 ⟨hk, (gx, gy), hin⟩
          rw [if_pos ⟨fun hcon => by rw [hkb] at hcon; exact absurd hcon.1 (by decide),
            hk, hpn⟩]
          constructor
          · intro hm
            exact absurd rfl (h4.mem_erase_iff.1 hm).1
          · rintro ⟨-, c, hc⟩
            rw [hg p c] at hc
            rcases hc with ⟨-, hne, -⟩ | ⟨hct, hp⟩
            · exact absurd rfl hne
            · exact absurd (hcur c hp) hct
        · rw [if_neg (fun hcon => hk hcon.2.1)]
          constructor
          · intro hm
            exact absurd ((h6 p).1 hm).1 hk
          · rintro ⟨hk', -⟩
            exact absurd hk' hk
      · have hmem : p ∈ (if ¬(o.kind = ObjKind.item ∧ o ∈ a.items) ∧
            className o.kind = "NPC" ∧ o ∈ a.npcs
            then a.npcs.erase o else a.npcs) ↔ p ∈ a.npcs := by
          split_ifs with hcon
          · rw [h4.mem_erase_iff]; simp [hpo]
          · exact Iff.rfl
        rw [hmem, h6 p]
        constructor
        · rintro ⟨hk, c, hc⟩
          refine ⟨hk, c, ?_⟩
          rw [hg p c]
          by_cases hc' : c = (gx, gy)
          · exact Or.inl ⟨hc', hpo, hc' ▸ hc⟩
          · exact Or.inr ⟨hc', hc⟩
        · rintro ⟨hk, c, hc⟩
          rw [hg p c] at hc
          rcases hc with ⟨hct, -, hp⟩ | ⟨-, hp⟩
          · exact ⟨hk, (gx, gy), hp⟩
          · exact ⟨hk, c, hp⟩
  · have hnowhere : ∀ c, o ∉ a.grid c := by
      intro c hc
      exact hin ((hcur c hc) ▸ hc)
    have hg : (remove_object_from_grid a o gx gy).grid = a.grid :=
      remove_grid_eq_of_absent a o gx gy hin
    have hoi : ¬(o.kind = ObjKind.item ∧ o ∈ a.items) := by
      rintro ⟨-, hm⟩
      obtain ⟨-, c, hc⟩ := (h5 o).1 hm
      exact hnowhere c hc
    have hon : ¬(¬(o.kind = ObjKind.item ∧ o ∈ a.items) ∧
        className o.kind = "NPC" ∧ o ∈ a.npcs) := by
      rintro ⟨-, -, hm⟩
      obtain ⟨-, c, hc⟩ := (h6 o).1 hm
      exact hnowhere c hc
    have hi : (remove_object_from_grid a o gx gy).items = a.items := by
      rw [remove_items_eq, if_neg hoi]
    have hn : (remove_object_from_grid a o gx gy).npcs = a.npcs := by
      rw [remove_npcs_eq, if_neg hon]
    exact ⟨by rw [hg]; exact h1, by rw [hg]; exact h2, by rw [hi]; exact h3,
      by rw [hn]; exact h4,
      by intro p; rw [hi, hg]; exact h5 p,
      by intro p; rw [hn, hg]; exact h6 p⟩

theorem remove_clears (a : Area) (o : Obj) (gx gy : Int)
    (hcur : ∀ c, o ∈ a.grid c → c = (gx, gy))
    (hnd : ∀ c, (a.grid c).Nodup) :
    ∀ c, o ∉ (remove_object_from_grid a o gx gy).grid c := by
  intro c hc
  by_cases hin : o ∈ a.grid (gx, gy)
  · rw [remove_grid_apply a o gx gy hin c] at hc
    by_cases hcc : c = (gx, gy)
    · rw [if_pos hcc] at hc
      exact ((hnd (gx, gy)).mem_erase_iff.1 hc).1 rfl
    · rw [if_neg hcc] at hc
      exact hcc (hcur c hc)
  · rw [remove_grid_eq_of_absent a o gx gy hin] at hc
    exact hin ((hcur c hc) ▸ hc)

theorem gridInv_move (a : Area) (o : Obj) (cur tgt : Int × Int)
    (hcur : ∀ c, o ∈ a.grid c → c = cur) (h : GridInv a) :
    GridInv (move_on_grid a o cur tgt) := by
  unfold move_on_grid
  split_ifs with hv
  · exact gridInv_add _ o tgt.1 tgt.2
      (remove_clears a o cur.1 cur.2 hcur h.2.1)
      (gridInv_remove a o cur.1 cur.2 hcur h)
  · exact h

theorem gridInv_of_goodReachable (a : Area) (h : GoodReachable a) :
    GridInv a := by
  induction h with
  | init a hg hi hn =>
    refine ⟨?_, ?_, ?_, ?_, ?_, ?_⟩
    · intro o c c' hc
      rw [hg] at hc
      simp at hc
    · intro c
      rw [hg]
      simp
    · rw [hi]
      exact List.nodup_nil
    · rw [hn]
      exact List.nodup_nil
    · intro o
      rw [hi, hg]
      simp
    · intro o
      rw [hn, hg]
      simp
  | place a o gx gy h hfresh ih => exact gridInv_add a o gx gy hfresh ih
  | removeAt a o gx gy h hcur ih => exact gridInv_remove a o gx gy hcur ih
  | moveAt a o cur tgt h hcur ih => exact gridInv_move a o cur tgt hcur ih

/-- C4 (amended): over well formed placement sequences, in which every
place targets an occupant currently nowhere on the area grid and every
remove or move names the cell the occupant occupies, an occupant sits
under at most one cell of the area, an Item is in `items` exactly when
it is placed, and an occupant of concrete class `NPC` is in `npcs`
exactly when it is placed.  (As stated over arbitrary sequences the
claim fails, see the counterexample; NPC subclass occupants are also
never listed in `npcs`, see C3.) -/
theorem c4_placement_invariant (a : Area) (h : GoodReachable a) :
    (∀ o c c', o ∈ a.grid c → o ∈ a.grid c' → c = c') ∧
    (∀ o, o.kind = ObjKind.item → (o ∈ a.items ↔ ∃ c, o ∈ a.grid c)) ∧
    (∀ o, className o.kind = "NPC" → (o ∈ a.npcs ↔ ∃ c, o ∈ a.grid c)) := by
  obtain ⟨h1, -, -, -, h5, h6⟩ := gridInv_of_goodReachable a h
  refine ⟨h1, ?_, ?_⟩
  · intro o hk
    rw [h5 o]
    simp [hk]
  · intro o hk
    rw [h6 o]
    simp [hk]

theorem c4_placement_invariant_witness :
    GoodReachable c4GoodArea ∧
    (itemObj ∈ c4GoodArea.items ↔ ∃ c, itemObj ∈ c4GoodArea.grid c) := by
  have hreach : GoodReachable c4GoodArea :=
    GoodReachable.place areaA itemObj 2 3
      (GoodReachable.init areaA rfl rfl rfl)
      (fun c => by simp [areaA])
  exact ⟨hreach, (c4_placement_invariant c4GoodArea hreach).2.1 itemObj rfl⟩

/-- C4 counterexample: calling `add_object_to_grid` twice for the same
occupant at two different cells (a sequence of place operations the
claim quantifies over) leaves the occupant listed under both cells at
once, contradicting the claimed at most one cell invariant. -/
theorem c4_counterexample :
    itemObj ∈ c4DoubleArea.grid (0, 0) ∧
    itemObj ∈ c4DoubleArea.grid (1, 1) ∧
    ((0, 0) : Int × Int) ≠ (1, 1) := by
  refine ⟨?_, ?_, by decide⟩ <;>
    simp [c4DoubleArea, add_object_to_grid, areaA, is_valid_grid_position,
      itemObj]

theorem process_shop_cases (a : Area) (q : String) (money : Rat)
    (catalog : String → Option Obj) (freshRef : Nat) :
    (process_player_purchase a q money catalog freshRef).shop = a ∨
    (∃ e, a.sells (pyLower q) = some e ∧ stockDepleted e.stock = false ∧
      (process_player_purchase a q money catalog freshRef).shop =
        purchaseDecrement a q e) := by
  unfold process_player_purchase
  split
  · exact Or.inl rfl
  · next e he =>
    by_cases hdep : stockDepleted e.stock = true
    · rw [if_pos hdep]
      exact Or.inl rfl
    · rw [if_neg hdep]
      by_cases hmon : money < e.price
      · rw [if_pos hmon]
        exact Or.inl rfl
      · rw [if_neg hmon]
        refine Or.inr ⟨e, he, Bool.not_eq_true _ ▸ hdep, ?_⟩
        split <;> rfl

/-- C6: a purchase request for an item whose stock is finite and zero
returns `out_of_stock` (and leaves the shop unchanged); no call drives
a non negative stock negative; a request the buyer cannot afford
returns `cannot_afford`; and the buyer's funds are untouched by every
non success outcome (the witness instantiates the scenario of money 4
against price 5: `cannot_afford`, money still 4). -/
theorem c6_purchase_guards (p : PState) (a : Area) (q : String)
    (catalog : String → Option Obj) (freshRef : Nat) :
    (∀ e, a.sells (pyLower q) = some e → e.stock = Stock.fin 0 →
      (process_player_purchase a q p.money catalog freshRef).outcome =
        Outcome.out_of_stock ∧
      (process_player_purchase a q p.money catalog freshRef).shop = a) ∧
    (∀ k, stockNonneg (a.sells k) →
      stockNonneg
        ((process_player_purchase a q p.money catalog freshRef).shop.sells k)) ∧
    (∀ e, a.sells (pyLower q) = some e → stockDepleted e.stock = false →
      p.money < e.price →
      (process_player_purchase a q p.money catalog freshRef).outcome =
        Outcome.cannot_afford) ∧
    (a.isShopClass = true → findUnpaidMatch p.inventory a q = none →
      (process_player_purchase a q p.money catalog freshRef).outcome ≠
        Outcome.success →
      (buy_item p a q catalog freshRef).1.money = p.money) := by
  refine ⟨?_, ?_, ?_, ?_⟩
  · intro e he h0
    have hd : stockDepleted e.stock = true := by
      rw [h0]
      decide
    constructor <;> simp [process_player_purchase, he, hd]
  · intro k hk
    rcases process_shop_cases a q p.money catalog freshRef with h | ⟨e, he, hdep, h⟩
    · rw [h]
      exact hk
    · rw [h]
      simp only [purchaseDecrement, sellsSet]
      by_cases hkk : k = pyLower q
      · rw [if_pos hkk]
        cases hs : e.stock with
        | fin n =>
          have hn : 0 < n := by
            rw [hs] at hdep
            simp only [stockDepleted, decide_eq_false_iff_not, not_le] at hdep
            exact hdep
          simp only [stockNonneg, decEntry, hs]
          omega
        | inf => simp [stockNonneg, decEntry, hs]
      · rw [if_neg hkk]
        exact hk
  · intro e he hdep hmon
    simp [process_player_purchase, he, hdep, hmon]
  · intro hcls hfind hns
    simp only [buy_item, hcls, Bool.true_eq_false, if_false, hfind]
    cases hro : (process_player_purchase a q p.money catalog freshRef).outcome
    case success => exact absurd hro hns
    all_goals
      cases hri : (process_player_purchase a q p.money catalog freshRef).inst <;>
        simp [hro, hri]

theorem c6_purchase_guards_witness :
    shopB.sells (pyLower "Churro") = some ⟨churroProto, 5, Stock.fin 3⟩ ∧
    stockDepleted (Stock.fin 3) = false ∧
    playerB.money < 5 ∧
    (process_player_purchase shopB "Churro" playerB.money catalogB 50).outcome =
      Outcome.cannot_afford ∧
    shopB.isShopClass = true ∧
    findUnpaidMatch playerB.inventory shopB "Churro" = none ∧
    (buy_item playerB shopB "Churro" catalogB 50).1.money = 4 ∧
    stockNonneg (shopB.sells "churro") ∧
    stockNonneg
      ((process_player_purchase shopB "Churro" playerB.money catalogB 50).shop.sells
        "churro") := by
  have h := c6_purchase_guards playerB shopB "Churro" catalogB 50
  have h3 := h.2.2.1 ⟨churroProto, 5, Stock.fin 3⟩ (by decide) (by decide)
    (by decide)
  have hnn : stockNonneg (shopB.sells "churro") := by
    show stockNonneg (some ⟨churroProto, 5, Stock.fin 3⟩)
    simp [stockNonneg]
  have h2 := h.2.1 "churro" hnn
  have h4 := h.2.2.2 (by decide) (by decide) (by rw [h3]; decide)
  exact ⟨by decide, by decide, by decide, h3, by decide, by decide,
    by rw [h4]; rfl, hnn, h2⟩

/-- C10: when the catalog cannot create an instance of the purchased
prototype, `process_player_purchase` returns `creation_failed` with the
stock for that item already decremented by one and not restored. -/
theorem c10_creation_failed_keeps_decrement (a : Area) (q : String)
    (money : Rat) (catalog : String → Option Obj) (freshRef : Nat)
    (e : SellEntry) (s : Int)
    (hsell : a.sells (pyLower q) = some e)
    (hstock : e.stock = Stock.fin s) (hpos : 0 < s)
    (hmoney : ¬ money < e.price)
    (hcat : catalog (pyLower e.prototype.name) = none) :
    (process_player_purchase a q money catalog freshRef).outcome =
      Outcome.creation_failed ∧
    (process_player_purchase a q money catalog freshRef).shop.sells
      (pyLower q) = some { e with stock := Stock.fin (s - 1) } := by
  have hdep : stockDepleted e.stock = false := by
    rw [hstock]
    simp only [stockDepleted, decide_eq_false_iff_not, not_le]
    exact hpos
  have hci : create_instance catalog e.prototype.name freshRef = none := by
    simp [create_instance, hcat]
  have hres : process_player_purchase a q money catalog freshRef =
      ⟨none, 0, Outcome.creation_failed, purchaseDecrement a q e⟩ := by
    unfold process_player_purchase
    rw [hsell]
    simp only [hdep, Bool.false_eq_true, if_false, if_neg hmoney, hci]
  rw [hres]
  refine ⟨rfl, ?_⟩
  show (purchaseDecrement a q e).sells (pyLower q) = _
  have hdec : decEntry e = { e with stock := Stock.fin (s - 1) } := by
    unfold decEntry
    rw [hstock]
  simp [purchaseDecrement, sellsSet, hdec]

theorem c10_creation_failed_keeps_decrement_witness :
    shopB.sells (pyLower "Churro") = some ⟨churroProto, 5, Stock.fin 3⟩ ∧
    (0 : Int) < 3 ∧
    ¬ (10 : Rat) < 5 ∧
    catalogEmpty (pyLower churroProto.name) = none ∧
    (process_player_purchase shopB "Churro" 10 catalogEmpty 50).outcome =
      Outcome.creation_failed ∧
    (process_player_purchase shopB "Churro" 10 catalogEmpty 50).shop.sells
      (pyLower "Churro") = some ⟨churroProto, 5, Stock.fin 2⟩ := by
  have h := c10_creation_failed_keeps_decrement shopB "Churro" 10 catalogEmpty
    50 ⟨churroProto, 5, Stock.fin 3⟩ 3 (by decide) rfl (by decide) (by decide)
    rfl
  exact ⟨by decide, by decide, by decide, rfl, h.1, h.2⟩

/-- C9: picking an item out of a shop's sell stock (no loose item of
that name at the player's cell, entry present with positive stock,
catalog able to clone the prototype) appends exactly one fresh
instance flagged unpaid with the shop's id to the inventory, adds 5
suspicion, and leaves the shop, in particular its sell stock ledger,
completely unchanged. -/
theorem c9_pickup_phantom_stock (p : PState) (a : Area) (q : String)
    (catalog : String → Option Obj) (freshRef : Nat)
    (e : SellEntry) (proto : Obj)
    (hloose : findLooseItem
      (a.grid ((get_relative_coordinates a p.coords).1,
        (get_relative_coordinates a p.coords).2.1)) q = none)
    (hcls : a.isShopClass = true)
    (hsell : a.sells (pyLower q) = some e)
    (hstock : stockPositive e.stock = true)
    (hcat : catalog (pyLower e.prototype.name) = some proto) :
    pick_up p a q catalog freshRef =
      ({ p with
          inventory := p.inventory ++
            [{ (cloneProto freshRef proto) with
                 isUnpaid := true
                 unpaidFromShopId := some a.id }],
          suspicion := p.suspicion + 5 }, a) := by
  have hci : create_instance catalog e.prototype.name freshRef =
      some (cloneProto freshRef proto) := by
    simp [create_instance, hcat]
  simp only [pick_up, hloose, hcls, hsell, hstock, hci, if_true]

theorem c9_pickup_phantom_stock_witness :
    findLooseItem
      (shopB.grid ((get_relative_coordinates shopB playerB.coords).1,
        (get_relative_coordinates shopB playerB.coords).2.1)) "Churro" = none ∧
    shopB.isShopClass = true ∧
    shopB.sells (pyLower "Churro") = some ⟨churroProto, 5, Stock.fin 3⟩ ∧
    stockPositive (Stock.fin 3) = true ∧
    catalogB (pyLower churroProto.name) = some churroProto ∧
    (pick_up playerB shopB "Churro" catalogB 50).1.inventory =
      [{ (cloneProto 50 churroProto) with
           isUnpaid := true
           unpaidFromShopId := some shopB.id }] ∧
    (pick_up playerB shopB "Churro" catalogB 50).2.sells "churro" =
      some ⟨churroProto, 5, Stock.fin 3⟩ := by
  have h := c9_pickup_phantom_stock playerB shopB "Churro" catalogB 50
    ⟨churroProto, 5, Stock.fin 3⟩ churroProto (by decide) (by decide)
    (by decide) (by decide) (by decide)
  refine ⟨by decide, by decide, by decide, by decide, by decide, ?_, ?_⟩
  · rw [h]
    rfl
  · rw [h]
    rfl

theorem check_for_theft_no_staff (p : PState) (shop : Area)
    (draws : Nat → Rat)
    (hshop : shop.isShop = true)
    (hn : unpaidFrom p.inventory shop.id ≠ [])
    (hstaff : staffOf shop = []) :
    check_for_theft p shop draws =
      PyResult.ok { p with suspicion := suspAfterAttempt p shop } := by
  unfold check_for_theft
  rw [if_neg (by simp [hshop]), if_neg hn, if_pos hstaff]
  rfl

theorem check_for_theft_raises (p : PState) (shop : Area)
    (draws : Nat → Rat)
    (hshop : shop.isShop = true)
    (hn : unpaidFrom p.inventory shop.id ≠ [])
    (hk : staffOf shop ≠ []) :
    check_for_theft p shop draws =
      PyResult.valueError { p with suspicion := suspAfterAttempt p shop } := by
  unfold check_for_theft
  rw [if_neg (by simp [hshop]), if_neg hn, if_neg hk]
  rfl

theorem set_current_area_leaving_shop (p : PState) (area : Area)
    (gx gy : Option Int) (draws : Nat → Rat) (shop : Area)
    (hold : p.currentArea = some shop)
    (hshop : shop.isShop = true)
    (hne : area.ref ≠ shop.ref)
    (hpar : shop.parentRef ≠ some area.ref) :
    set_current_area p area gx gy draws =
      check_for_theft
        { p with currentArea := some area, coords := entryCoords area gx gy }
        shop draws := by
  unfold set_current_area
  rw [hold]
  exact if_pos ⟨hshop, hne, hpar⟩

/-- C2: on every attempted exit from a shop while holding unpaid items
from it (destination neither the shop nor its parent), the suspicion
rating rises by exactly `10 * n`; with zero staff members present the
attempt always succeeds (the call returns normally): the inventory, and
in particular the unpaid items and their flags, are untouched. -/
theorem c2_zero_staff_exit (p : PState) (shop area : Area)
    (gx gy : Option Int) (draws : Nat → Rat)
    (hold : p.currentArea = some shop)
    (hshop : shop.isShop = true)
    (hne : area.ref ≠ shop.ref)
    (hpar : shop.parentRef ≠ some area.ref)
    (hn : unpaidFrom p.inventory shop.id ≠ [])
    (hstaff : staffOf shop = []) :
    ∃ p', set_current_area p area gx gy draws = PyResult.ok p' ∧
      p'.inventory = p.inventory ∧
      p'.suspicion =
        p.suspicion + 10 * ((unpaidFrom p.inventory shop.id).length : Rat) ∧
      unpaidFrom p'.inventory shop.id = unpaidFrom p.inventory shop.id := by
  rw [set_current_area_leaving_shop p area gx gy draws shop hold hshop hne hpar]
  rw [check_for_theft_no_staff
    { p with currentArea := some area, coords := entryCoords area gx gy }
    shop draws hshop hn hstaff]
  exact ⟨_, rfl, rfl, rfl, rfl⟩

theorem c2_zero_staff_exit_witness :
    playerE.currentArea = some shopE ∧
    shopE.isShop = true ∧
    areaD.ref ≠ shopE.ref ∧
    shopE.parentRef ≠ some areaD.ref ∧
    unpaidFrom playerE.inventory shopE.id ≠ [] ∧
    staffOf shopE = [] ∧
    (∃ p', set_current_area playerE areaD none none (fun _ => 0) =
        PyResult.ok p' ∧
      p'.inventory = [unpaidChurro] ∧ p'.suspicion = 10) := by
  obtain ⟨p', h1, h2, h3, -⟩ := c2_zero_staff_exit playerE shopE areaD none
    none (fun _ => 0) rfl rfl (by decide) (by decide) (by decide) (by decide)
  have hlen : (unpaidFrom playerE.inventory shopE.id).length = 1 := by decide
  refine ⟨rfl, rfl, by decide, by decide, by decide, by decide,
    p', h1, ?_, ?_⟩
  · rw [h2]
    rfl
  · rw [h3, hlen]
    norm_num [playerE]

/-- C1: the claim describes the staff detection loop (per staff member
a chance `clamp(0.05, 0.95, (0.1 + alertness*0.2 - distance*0.05 +
suspicion*0.01) / k)`, one independent uniform draw each, the first
success confiscating all `n` unpaid items and adding a flat 20).  The
code cannot perform any of it: on every input the claim covers (a
genuine exit holding unpaid items from the shop with staff present),
player.py:405 unpacks the three component tuple returned by
`get_relative_coordinates` into two names and raises `ValueError`, so
the call terminates exceptionally with the suspicion already increased
by `10 * n`, no detection chance computed, no uniform sample consumed
(the result does not depend on `draws`), and nothing confiscated. -/
theorem c1_theft_check_raises (p : PState) (shop area : Area)
    (gx gy : Option Int) (draws : Nat → Rat)
    (hold : p.currentArea = some shop)
    (hshop : shop.isShop = true)
    (hne : area.ref ≠ shop.ref)
    (hpar : shop.parentRef ≠ some area.ref)
    (hn : unpaidFrom p.inventory shop.id ≠ [])
    (hk : staffOf shop ≠ []) :
    set_current_area p area gx gy draws =
      PyResult.valueError
        { p with currentArea := some area, coords := entryCoords area gx gy,
                 suspicion := suspAfterAttempt p shop } := by
  rw [set_current_area_leaving_shop p area gx gy draws shop hold hshop hne hpar]
  rw [check_for_theft_raises
    { p with currentArea := some area, coords := entryCoords area gx gy }
    shop draws hshop hn hk]
  rfl

theorem c1_theft_check_raises_witness :
    playerC.currentArea = some shopC ∧
    shopC.isShop = true ∧
    areaD.ref ≠ shopC.ref ∧
    shopC.parentRef ≠ some areaD.ref ∧
    unpaidFrom playerC.inventory shopC.id ≠ [] ∧
    staffOf shopC ≠ [] ∧
    set_current_area playerC areaD none none (fun _ => 0) =
      PyResult.valueError
        { playerC with currentArea := some areaD,
                       coords := entryCoords areaD none none,
                       suspicion := suspAfterAttempt playerC shopC } ∧
    suspAfterAttempt playerC shopC = 10 := by
  have h := c1_theft_check_raises playerC shopC areaD none none (fun _ => 0)
    rfl rfl (by decide) (by decide) (by decide) (by decide)
  have hlen : (unpaidFrom playerC.inventory shopC.id).length = 1 := by decide
  refine ⟨rfl, rfl, by decide, by decide, by decide, by decide, h, ?_⟩
  simp only [suspAfterAttempt, hlen]
  norm_num [playerC]

theorem reachable_npcs_base (a : Area) (h : ReachableArea a) :
    ∀ o ∈ a.npcs, className o.kind = "NPC" := by
  induction h with
  | init a hg hi hn =>
    intro o ho
    rw [hn] at ho
    simp at ho
  | add a o gx gy h ih =>
    intro x hx
    by_cases hv : is_valid_grid_position a gx gy = true
    · rw [add_npcs_eq a o gx gy hv] at hx
      split_ifs at hx with hcon
      · rcases List.mem_append.mp hx with hx | hx
        · exact ih x hx
        · rw [List.mem_singleton] at hx
          rw [hx]
          exact hcon.2.1
      · exact ih x hx
    · rw [add_eq_of_invalid a o gx gy hv] at hx
      exact ih x hx
  | remove a o gx gy h ih =>
    intro x hx
    rw [remove_npcs_eq] at hx
    split_ifs at hx with hcon
    · exact ih x (List.mem_of_mem_erase hx)
    · exact ih x hx
  | other a b h hn ih =>
    intro x hx
    rw [hn] at hx
    exact ih x hx

/-- C3: `add_object_to_grid` compares the class name against exactly
the string `NPC`, so an occupant of a proper NPC subclass is never
inserted into any `npcs` list; consequently, in every reachable area
state the theft check's staff scan is empty, and the theft check never
confiscates anything: it returns normally with the inventory preserved
and the suspicion either unchanged or taking only the immediate
`10 * n` increase, never the caught penalty. -/
theorem c3_staff_never_listed (a : Area) (h : ReachableArea a) :
    (∀ (b : Area) (o : Obj) (gx gy : Int),
      (o.kind = ObjKind.parkCharacter ∨ o.kind = ObjKind.guest ∨
        o.kind = ObjKind.castMember ∨ o.kind = ObjKind.shadyCharacter) →
      (add_object_to_grid b o gx gy).npcs = b.npcs) ∧
    staffOf a = [] ∧
    (∀ (p : PState) (draws : Nat → Rat),
      ∃ p', check_for_theft p a draws = PyResult.ok p' ∧
        p'.inventory = p.inventory ∧
        (p'.suspicion = p.suspicion ∨
         p'.suspicion = suspAfterAttempt p a)) := by
  have hntag := reachable_npcs_base a h
  have hstaff : staffOf a = [] := by
    apply List.filter_eq_nil_iff.mpr
    intro o ho
    have hcn := hntag o ho
    simp [hcn]
  refine ⟨?_, hstaff, ?_⟩
  · intro b o gx gy hk
    by_cases hv : is_valid_grid_position b gx gy = true
    · rw [add_npcs_eq b o gx gy hv]
      rw [if_neg ?hno]
      case hno =>
        rintro ⟨-, hnpc, -⟩
        rcases hk with hk | hk | hk | hk <;> rw [hk] at hnpc <;>
          exact absurd hnpc (by decide)
    · rw [add_eq_of_invalid b o gx gy hv]
  · intro p draws
    unfold check_for_theft
    by_cases h1 : a.isShop = false
    · rw [if_pos h1]
      exact ⟨p, rfl, rfl, Or.inl rfl⟩
    · rw [if_neg h1]
      by_cases h2 : unpaidFrom p.inventory a.id = []
      · rw [if_pos h2]
        exact ⟨p, rfl, rfl, Or.inl rfl⟩
      · rw [if_neg h2, if_pos hstaff]
        exact ⟨_, rfl, rfl, Or.inr rfl⟩

theorem c3_staff_never_listed_witness :
    ReachableArea shopF ∧ staffOf shopF = [] ∧
    (∃ p', check_for_theft playerC shopF (fun _ => 0) = PyResult.ok p' ∧
      p'.inventory = playerC.inventory) := by
  have hreach : ReachableArea shopF :=
    ReachableArea.add _ cmObj 1 1 (ReachableArea.init _ rfl rfl rfl)
  have h := c3_staff_never_listed shopF hreach
  obtain ⟨p', h1, h2, -⟩ := h.2.2 playerC (fun _ => 0)
  exact ⟨hreach, h.2.1, p', h1, h2⟩

/-- C8 (amended): when the base update produced no movement message,
the cooldown after it is 0 and the separate 0.2 roll succeeds, the
signature phrase is emitted exactly when the player is present in the
same area within distance 10, and then the cooldown is reset to the
drawn value of `randint(3, 6)`; with the player absent or in a
different area the cooldown is reset without a message; but when the
player is in the same area beyond distance 10 neither happens: the
cooldown is NOT reset (it stays 0), contrary to the claim's
`regardless of visibility`. -/
theorem c8_signature_gate (s : NPCState) (player : Option PlayerView)
    (r : NPCRand) (s1 : NPCState)
    (hb : npc_update s player r = (s1, none))
    (hc : s1.cooldown = 0) (hr : r.sigRoll < 0.2) :
    (∀ pv, player = some pv → pv.areaRef = s1.locRef →
      distance_to s1.coords pv.coords ≤ 10 →
      park_character_update s player r =
        ({ s1 with cooldown := r.sigCooldown },
          some (s1.name ++ " " ++ s1.signatureMove ++ "."))) ∧
    (player = none →
      park_character_update s player r =
        ({ s1 with cooldown := r.sigCooldown }, none)) ∧
    (∀ pv, player = some pv → pv.areaRef ≠ s1.locRef →
      park_character_update s player r =
        ({ s1 with cooldown := r.sigCooldown }, none)) ∧
    (∀ pv, player = some pv → pv.areaRef = s1.locRef →
      ¬ distance_to s1.coords pv.coords ≤ 10 →
      park_character_update s player r = (s1, none)) := by
  have hcond : (npc_update s player r).2 = none ∧
      (npc_update s player r).1.cooldown = 0 ∧ r.sigRoll < 0.2 := by
    rw [hb]
    exact ⟨rfl, hc, hr⟩
  refine ⟨?_, ?_, ?_, ?_⟩
  · intro pv hp ha hd
    subst hp
    unfold park_character_update
    rw [if_pos hcond, hb]
    simp only []
    rw [if_pos ha, if_pos hd]
  · intro hp
    subst hp
    unfold park_character_update
    rw [if_pos hcond, hb]
  · intro pv hp ha
    subst hp
    unfold park_character_update
    rw [if_pos hcond, hb]
    simp only []
    rw [if_neg ha]
  · intro pv hp ha hd
    subst hp
    unfold park_character_update
    rw [if_pos hcond, hb]
    simp only []
    rw [if_pos ha, if_neg hd]

theorem c8_signature_gate_witness :
    npc_update mickeyS none randSig = (mickeyS, none) ∧
    mickeyS.cooldown = 0 ∧ randSig.sigRoll < 0.2 ∧
    park_character_update mickeyS none randSig =
      ({ mickeyS with cooldown := randSig.sigCooldown }, none) := by
  have hb : npc_update mickeyS none randSig = (mickeyS, none) := by
    unfold npc_update
    rw [if_neg (by norm_num [mickeyS]), if_neg ?hmove]
    case hmove =>
      rintro ⟨-, h⟩
      norm_num [randSig] at h
  have hr : randSig.sigRoll < 0.2 := by norm_num [randSig]
  have h := c8_signature_gate mickeyS none randSig mickeyS hb rfl hr
  exact ⟨hb, rfl, hr, h.2.1 rfl⟩

/-- C8 counterexample: with the player in the same area at distance 20,
cooldown 0, no movement message and a successful 0.2 roll with drawn
cooldown 4 (inside [3, 6]), the scripted character update emits nothing
and leaves the cooldown at 0 instead of resetting it to the drawn
value, refuting `its cooldown is reset to a random integer in [3, 6]
inclusive regardless of whether the player was visible`. -/
theorem c8_counterexample :
    (npc_update mickeyS (some playerFar) randSig).2 = none ∧
    (npc_update mickeyS (some playerFar) randSig).1.cooldown = 0 ∧
    randSig.sigRoll < 0.2 ∧
    randSig.sigCooldown = 4 ∧
    (park_character_update mickeyS (some playerFar) randSig).2 = none ∧
    (park_character_update mickeyS (some playerFar) randSig).1.cooldown = 0 ∧
    (park_character_update mickeyS (some playerFar) randSig).1.cooldown ≠
      randSig.sigCooldown := by
  have hb : npc_update mickeyS (some playerFar) randSig = (mickeyS, none) := by
    unfold npc_update
    rw [if_neg (by norm_num [mickeyS]), if_neg ?hmove]
    case hmove =>
      rintro ⟨-, h⟩
      norm_num [randSig] at h
  have hr : randSig.sigRoll < 0.2 := by norm_num [randSig]
  have hfar : ¬ distance_to mickeyS.coords playerFar.coords ≤ 10 := by
    unfold distance_to
    have h1 : ((mickeyS.coords.x - playerFar.coords.x : Int) : Real) ^ 2 +
        ((mickeyS.coords.y - playerFar.coords.y : Int) : Real) ^ 2 = 400 := by
      norm_num [mickeyS, playerFar]
    rw [h1, show (400 : Real) = 20 ^ 2 by norm_num,
      Real.sqrt_sq (by norm_num : (0 : Real) ≤ 20)]
    norm_num
  have hgate := c8_signature_gate mickeyS (some playerFar) randSig mickeyS
    hb rfl hr
  have hpark := hgate.2.2.2 playerFar rfl rfl hfar
  refine ⟨by rw [hb], by rw [hb]; rfl, hr, rfl, by rw [hpark],
    by rw [hpark]; rfl, by rw [hpark]; decide⟩

end Disney
